import Mathlib

/-!
Verification of the gha-debug workflow execution model: a shallow embedding
of `gha_debug/runner.py` (the sequential job/step runner with environment
layering and fail-fast semantics) and of `gha_debug/parser.py` (the workflow
loader), with theorems settling the behavioural claims about them.

Python's dynamically typed YAML values are modelled by the inductive `Yaml`;
dictionaries are modelled as association lists where the *last* binding for a
key wins (`dlookup`), which matches the lookup behaviour of Python's
`dict.update` / `{**a, **b}` merging.  External effects (the shell subprocess
spawned by `subprocess.run`, the simulated-action sleep) are modelled by an
oracle `World`; every quantified theorem below holds for every oracle.
-/

namespace GhaDebug

/-- A parsed YAML value (the subset of shapes `yaml.safe_load` produces that
the program manipulates). -/
inductive Yaml where
  | str (s : String)
  | int (n : Int)
  | bool (b : Bool)
  | nullV
  | list (items : List Yaml)
  | map (entries : List (String × Yaml))

mutual

/-- Python `repr` of a value, as used by `str` on non-string values. -/
def pyRepr : Yaml → String
  | .str s => "'" ++ s ++ "'"
  | .int n => toString n
  | .bool b => if b then "True" else "False"
  | .nullV => "None"
  | .list xs => "[" ++ pyReprList xs ++ "]"
  | .map kvs => "\x7b" ++ pyReprMap kvs ++ "\x7d"

def pyReprList : List Yaml → String
  | [] => ""
  | [x] => pyRepr x
  | x :: y :: xs => pyRepr x ++ ", " ++ pyReprList (y :: xs)

def pyReprMap : List (String × Yaml) → String
  | [] => ""
  | [(k, v)] => "'" ++ k ++ "': " ++ pyRepr v
  | (k, v) :: e :: kvs => "'" ++ k ++ "': " ++ pyRepr v ++ ", " ++ pyReprMap (e :: kvs)

end

/-- Python `str(v)`: identity on strings, `repr` otherwise (runner.py line 191
applies this to every job-environment value). -/
def pyStr : Yaml → String
  | .str s => s
  | y => pyRepr y

/-- Python truthiness of a value, as used by `if step.get("uses"):` and
`if step.get("run"):` in `_run_step` (runner.py lines 100-102). -/
def ytruthy : Yaml → Bool
  | .str s => !(s == "")
  | .int n => !(n == 0)
  | .bool b => b
  | .nullV => false
  | .list xs => !xs.isEmpty
  | .map kvs => !kvs.isEmpty

/-- Whether a value is a Python `str`. -/
def Yaml.isStr : Yaml → Bool
  | .str _ => true
  | _ => false

/-- Dictionary lookup on an association list where the last binding for a key
wins — the lookup semantics of a Python dict built by successive `update`s /
`{**a, **b}` merges (modelled here as list append). -/
def dlookup {α : Type} : List (String × α) → String → Option α
  | [], _ => none
  | (k', v) :: rest, k =>
    match dlookup rest k with
    | some w => some w
    | none => if k' == k then some v else none

/-- A parsed step, as built by `WorkflowParser.parse` (parser.py lines 59-65):
`uses` and `run` hold the raw YAML values (`nullV` standing for Python's
`None` default of `step.get`). -/
structure Step where
  name : Yaml
  uses : Yaml
  run : Yaml
  env : List (String × Yaml)
  withParams : List (String × Yaml)

/-- A parsed job (parser.py lines 67-73). -/
structure Job where
  id : String
  name : Yaml
  runsOn : Yaml
  env : List (String × Yaml)
  steps : List Step

/-- A parsed workflow (parser.py lines 75-79). -/
structure Workflow where
  name : Yaml
  env : List (String × Yaml)
  jobs : List Job

/-- The outcome of attempting one shell command through `subprocess.run`:
either the process ran and exited with a code (and produced stderr text), or
an exception was raised while starting or communicating with it. -/
inductive CmdOutcome where
  | exit (code : Int) (stderr : String)
  | exc (msg : String)

/-- The oracle for everything outside the program: the ambient process
environment (`os.environ`), the wall-clock duration of the simulated action
sleep, and for each shell invocation its outcome and duration. -/
structure World where
  osEnv : List (String × String)
  sleepDur : Nat
  exec : Yaml → List (String × Yaml) → CmdOutcome × Nat

/-- A string-valued environment viewed as a Yaml-valued one. -/
def injectStrs (l : List (String × String)) : List (String × Yaml) :=
  l.map (fun p => (p.1, Yaml.str p.2))

/-- The fixed base layer of simulated CI context variables
(`_build_environment`, runner.py lines 179-186), before string coercion. -/
def baseEnv (wf : Workflow) (job : Job) : List (String × Yaml) :=
  [("CI", Yaml.str "true"),
   ("GITHUB_ACTIONS", Yaml.str "true"),
   ("GITHUB_WORKFLOW", wf.name),
   ("GITHUB_JOB", Yaml.str job.id),
   ("GITHUB_RUNNER_OS", Yaml.str "Linux"),
   ("RUNNER_OS", Yaml.str "Linux")]

/-- `_build_environment` (runner.py lines 170-191): base layer, then
workflow-level env, then job-level env (later layers winning on collision),
with every value coerced by `str`. -/
def buildEnvironment (wf : Workflow) (job : Job) : List (String × String) :=
  (baseEnv wf job ++ wf.env ++ job.env).map (fun p => (p.1, pyStr p.2))

/-- The per-step environment `step_env = {**env, **step.get("env", {})}`
(runner.py line 98): the job environment with the step-level env merged on
top.  Note the step-level values are merged raw, without string coercion. -/
def stepEnvOf (env : List (String × String)) (step : Step) : List (String × Yaml) :=
  injectStrs env ++ step.env

/-- `_run_step` together with its branch targets `_run_action` and
`_run_command` (runner.py lines 86-168), returning the success flag and the
wall-clock duration consumed.  The action branch sleeps and succeeds; the
command branch spawns the shell through the oracle with the step environment
overlaid on the ambient process environment, succeeds exactly on exit code 0,
and converts a raised exception into failure. -/
def runStep (W : World) (step : Step) (env : List (String × String)) : Bool × Nat :=
  let stepEnv := stepEnvOf env step
  if ytruthy step.uses then
    (true, W.sleepDur)
  else if ytruthy step.run then
    match W.exec step.run (injectStrs W.osEnv ++ stepEnv) with
    | (CmdOutcome.exit code _, d) => (code == 0, d)
    | (CmdOutcome.exc _, d) => (false, d)
  else
    (true, 0)

/-- An observable dispatch event: a job beginning (`_run_job`'s job header)
or a step being dispatched (`_run_step` invoked), identified by the job id
and the step's position in the job. -/
inductive Event where
  | jobStart (jobId : String)
  | stepRun (jobId : String) (idx : Nat)
deriving DecidableEq

/-- The job id an event belongs to. -/
def eventJobId : Event → String
  | .jobStart i => i
  | .stepRun i _ => i

/-- The step loop of `_run_job` (runner.py lines 79-84): dispatch steps in
order, stop at the first failure.  Returns the job's success flag, the
duration consumed, and the dispatch events in order. -/
def runStepsAux (W : World) (jobId : String) (env : List (String × String)) :
    Nat → List Step → Bool × Nat × List Event
  | _, [] => (true, 0, [])
  | idx, s :: rest =>
    let r := runStep W s env
    if r.1 then
      let rec' := runStepsAux W jobId env (idx + 1) rest
      (rec'.1, r.2 + rec'.2.1, Event.stepRun jobId idx :: rec'.2.2)
    else
      (false, r.2, [Event.stepRun jobId idx])

/-- `_run_job` (runner.py lines 66-84): announce the job, build its
environment once, run its steps in order with fail-fast. -/
def runJob (W : World) (wf : Workflow) (job : Job) : Bool × Nat × List Event :=
  let env := buildEnvironment wf job
  let r := runStepsAux W job.id env 0 job.steps
  (r.1, r.2.1, Event.jobStart job.id :: r.2.2)

/-- The result dictionary of `WorkflowRunner.run`: `error = none` models the
key being absent from the returned dict. -/
structure RunResult where
  success : Bool
  error : Option String
  total_time : Int
deriving DecidableEq

/-- The job loop of `run` (runner.py lines 50-64): run jobs in order; on the
first failing job return failure with that job's id in the error message and
the elapsed time so far; otherwise succeed with the total elapsed time. -/
def runJobs (W : World) (wf : Workflow) : List Job → RunResult × List Event
  | [] => ({ success := true, error := none, total_time := 0 }, [])
  | j :: rest =>
    let r := runJob W wf j
    if r.1 then
      let rec' := runJobs W wf rest
      ({ rec'.1 with total_time := (r.2.1 : Int) + rec'.1.total_time },
       r.2.2 ++ rec'.2)
    else
      ({ success := false,
         error := some ("Job '" ++ j.id ++ "' failed"),
         total_time := (r.2.1 : Int) }, r.2.2)

/-- Python truthiness of the `Optional[str]` job filter (`if job_filter:`,
runner.py line 41): `None` and the empty string are falsy. -/
def strTruthy : Option String → Bool
  | none => false
  | some s => !(s == "")

/-- `WorkflowRunner.run` (runner.py lines 29-64): with a truthy filter keep
exactly the jobs whose id equals it (failing with a not-found result and zero
elapsed time when none matches), then run the selected jobs. -/
def run (W : World) (wf : Workflow) (jobFilter : Option String) :
    RunResult × List Event :=
  if strTruthy jobFilter then
    let f := jobFilter.getD ""
    let jobsToRun := wf.jobs.filter (fun j => j.id == f)
    if jobsToRun.isEmpty then
      ({ success := false,
         error := some ("Job '" ++ f ++ "' not found"),
         total_time := 0 }, [])
    else
      runJobs W wf jobsToRun
  else
    runJobs W wf wf.jobs

/-- What the filesystem and the YAML library yield for the workflow path:
the file is absent, the text is not parseable YAML (`yaml.YAMLError`), or a
parsed document. -/
inductive FileInput where
  | missing
  | yamlError (msg : String)
  | content (doc : Yaml)

/-- How `WorkflowParser.parse` can fail: the three documented conditions
(parser.py lines 30-40) plus an exception that escapes the job/step loops
uncaught (`.items()` on a non-dict, iterating a non-iterable). -/
inductive PError where
  | fileNotFound (msg : String)
  | invalidYaml (msg : String)
  | notMapping
  | uncaught (msg : String)

/-- Python `d.items()`: defined for dicts only; on anything else the
attribute access raises `AttributeError`. -/
def yamlItems : Yaml → Option (List (String × Yaml))
  | .map kvs => some kvs
  | _ => none

/-- Python iteration `for x in v`: lists yield their items, dicts their keys,
strings their characters; ints, bools and `None` raise `TypeError`. -/
def yamlIter : Yaml → Option (List Yaml)
  | .list xs => some xs
  | .map kvs => some (kvs.map (fun p => Yaml.str p.1))
  | .str s => some (s.toList.map (fun c => Yaml.str c.toString))
  | .int _ => none
  | .bool _ => none
  | .nullV => none

/-- View a value as an env/params mapping.  The source stores the raw value;
a non-mapping value would only fault later, at dispatch time, when the runner
merges it — the model normalises that corner (which no claim exercises) to an
empty mapping. -/
def asMapD : Yaml → List (String × Yaml)
  | .map kvs => kvs
  | _ => []

/-- One parsed step (parser.py lines 58-65): the name falls back from `name`
to `uses` to `run` to a literal placeholder; `uses` and `run` keep the raw
values with `None` for an absent key. -/
def buildStep (sm : List (String × Yaml)) : Step :=
  { name := (dlookup sm "name").getD
      ((dlookup sm "uses").getD ((dlookup sm "run").getD (Yaml.str "Unnamed step"))),
    uses := (dlookup sm "uses").getD Yaml.nullV,
    run := (dlookup sm "run").getD Yaml.nullV,
    env := asMapD ((dlookup sm "env").getD (Yaml.map [])),
    withParams := asMapD ((dlookup sm "with").getD (Yaml.map [])) }

/-- The step loop (parser.py lines 54-65): non-dict entries are skipped. -/
def buildSteps : List Yaml → List Step
  | [] => []
  | Yaml.map sm :: rest => buildStep sm :: buildSteps rest
  | _ :: rest => buildSteps rest

/-- One parsed job (parser.py lines 67-73). -/
def buildJob (jobId : String) (jm : List (String × Yaml)) (steps : List Step) : Job :=
  { id := jobId,
    name := (dlookup jm "name").getD (Yaml.str jobId),
    runsOn := (dlookup jm "runs-on").getD (Yaml.str "ubuntu-latest"),
    env := asMapD ((dlookup jm "env").getD (Yaml.map [])),
    steps := steps }

/-- The job loop (parser.py lines 46-73): non-dict job bodies are skipped;
`none` models a `TypeError` escaping when a job's `steps` value cannot be
iterated. -/
def buildJobs : List (String × Yaml) → Option (List Job)
  | [] => some []
  | (jobId, jdata) :: rest =>
    match jdata with
    | Yaml.map jm =>
      match yamlIter ((dlookup jm "steps").getD (Yaml.list [])) with
      | none => none
      | some stepItems =>
        (buildJobs rest).map (fun js => buildJob jobId jm (buildSteps stepItems) :: js)
    | _ => buildJobs rest

/-- `WorkflowParser.parse` (parser.py lines 20-79) over the abstract file
input: the three guard conditions in source order, then the construction of
the workflow value; `.error (.uncaught _)` models an exception escaping the
construction (`jobs.items()` on a non-dict value, or a non-iterable `steps`). -/
def parse (stem : String) (path : String) (fi : FileInput) : Except PError Workflow :=
  match fi with
  | .missing => .error (.fileNotFound ("Workflow file not found: " ++ path))
  | .yamlError e => .error (.invalidYaml ("Invalid YAML in workflow file: " ++ e))
  | .content data =>
    match data with
    | .map kvs =>
      let workflowName := (dlookup kvs "name").getD (Yaml.str stem)
      let jobs := (dlookup kvs "jobs").getD (Yaml.map [])
      let env := (dlookup kvs "env").getD (Yaml.map [])
      match yamlItems jobs with
      | none => .error (.uncaught "AttributeError: no attribute items")
      | some jobItems =>
        match buildJobs jobItems with
        | none => .error (.uncaught "TypeError: object is not iterable")
        | some parsedJobs =>
          .ok { name := workflowName, env := asMapD env, jobs := parsedJobs }
    | _ => .error .notMapping

/-- The shape condition under which the workflow construction itself cannot
fault: the `jobs` entry (defaulting to an empty mapping) is a mapping, and
every dict-shaped job body has an iterable `steps` entry (defaulting to an
empty list). -/
def jobsShapeOk (kvs : List (String × Yaml)) : Bool :=
  match (dlookup kvs "jobs").getD (Yaml.map []) with
  | Yaml.map jobItems =>
    jobItems.all (fun p =>
      match p.2 with
      | Yaml.map jm => ((dlookup jm "steps").getD (Yaml.list []) |> yamlIter).isSome
      | _ => true)
  | _ => false

/-! Concrete fixtures used by witnesses and counterexamples. -/

/-- A deterministic world: every shell command exits 0 in one tick, except
the literal command `exit 1`, which exits 1. -/
def W0 : World :=
  { osEnv := [],
    sleepDur := 1,
    exec := fun cmd _ =>
      match cmd with
      | Yaml.str s =>
        if s == "exit 1" then (CmdOutcome.exit 1 "", 1) else (CmdOutcome.exit 0 "", 1)
      | _ => (CmdOutcome.exit 0 "", 1) }

/-- A world in which spawning the shell always raises. -/
def Wexc : World :=
  { osEnv := [], sleepDur := 1, exec := fun _ _ => (CmdOutcome.exc "spawn failed", 0) }

def stepOkEx : Step :=
  { name := Yaml.str "ok step", uses := Yaml.nullV, run := Yaml.str "echo ok",
    env := [], withParams := [] }

def stepFailEx : Step :=
  { name := Yaml.str "bad step", uses := Yaml.nullV, run := Yaml.str "exit 1",
    env := [], withParams := [] }

def jobA : Job :=
  { id := "a", name := Yaml.str "a", runsOn := Yaml.str "ubuntu-latest",
    env := [], steps := [stepOkEx] }

def jobB : Job :=
  { id := "b", name := Yaml.str "b", runsOn := Yaml.str "ubuntu-latest",
    env := [], steps := [stepFailEx] }

/-- The spec section 8 example workflow: job `a` succeeds, job `b` fails. -/
def wfEx : Workflow := { name := Yaml.str "W", env := [], jobs := [jobA, jobB] }

/-- Two jobs sharing the id `a`; the first fails, the second would succeed. -/
def jobDup1 : Job :=
  { id := "a", name := Yaml.str "first a", runsOn := Yaml.str "ubuntu-latest",
    env := [], steps := [stepFailEx] }

def jobDup2 : Job :=
  { id := "a", name := Yaml.str "second a", runsOn := Yaml.str "ubuntu-latest",
    env := [], steps := [stepOkEx] }

def wfDup : Workflow := { name := Yaml.str "W", env := [], jobs := [jobDup1, jobDup2] }

/-- A step whose own env carries a non-string (integer) value. -/
def stepIntEnv : Step :=
  { name := Yaml.str "s", uses := Yaml.nullV, run := Yaml.str "echo ok",
    env := [("K", Yaml.int 1)], withParams := [] }

def jobIntEnv : Job :=
  { id := "j", name := Yaml.str "j", runsOn := Yaml.str "ubuntu-latest",
    env := [], steps := [stepIntEnv] }

def wfIntEnv : Workflow := { name := Yaml.str "W", env := [], jobs := [jobIntEnv] }

/-- Fixtures for the three-level precedence check: the same key at every
layer. -/
def stepLayer : Step :=
  { name := Yaml.str "s", uses := Yaml.nullV, run := Yaml.str "echo ok",
    env := [("K", Yaml.str "step")], withParams := [] }

def jobLayer : Job :=
  { id := "j", name := Yaml.str "j", runsOn := Yaml.str "ubuntu-latest",
    env := [("K", Yaml.str "job")], steps := [stepLayer] }

def wfLayer : Workflow :=
  { name := Yaml.str "W", env := [("K", Yaml.str "wf")], jobs := [jobLayer] }

/-- A top-level mapping whose `jobs` entry is not a mapping: `jobs.items()`
raises `AttributeError` inside `parse`. -/
def badJobsDoc : Yaml := Yaml.map [("jobs", Yaml.int 5)]

/-- Whether every value of an env mapping is a string. -/
def envAllStr (d : List (String × Yaml)) : Bool := d.all (fun p => p.2.isStr)

/-! Association-list (Python dict) lemmas. -/

theorem dlookup_append {α : Type} (a b : List (String × α)) (k : String) :
    dlookup (a ++ b) k =
      match dlookup b k with
      | some v => some v
      | none => dlookup a k := by
  induction a with
  | nil =>
    simp only [List.nil_append, dlookup]
    cases dlookup b k <;> rfl
  | cons p a ih =>
    obtain ⟨k', v⟩ := p
    simp only [List.cons_append, dlookup, List.append_eq, ih]
    cases dlookup b k <;> cases dlookup a k <;> rfl

theorem dlookup_map {α β : Type} (f : α → β) (l : List (String × α)) (k : String) :
    dlookup (l.map (fun p => (p.1, f p.2))) k = (dlookup l k).map f := by
  induction l with
  | nil => rfl
  | cons p l ih =>
    obtain ⟨k', v⟩ := p
    simp only [List.map_cons, dlookup, ih]
    cases dlookup l k with
    | some w => rfl
    | none =>
      simp only [Option.map_none]
      by_cases h : (k' == k) = true <;> simp [h]

theorem dlookup_all {α : Type} (P : α → Bool) {d : List (String × α)}
    (hd : d.all (fun p => P p.2) = true) {k : String} {v : α}
    (h : dlookup d k = some v) : P v = true := by
  induction d with
  | nil => simp [dlookup] at h
  | cons p d ih =>
    obtain ⟨k', w⟩ := p
    simp only [List.all_cons, Bool.and_eq_true] at hd
    simp only [dlookup] at h
    cases hrec : dlookup d k with
    | some u =>
      rw [hrec] at h
      exact ih hd.2 (hrec.trans (by injection h with h'; rw [h']))
    | none =>
      rw [hrec] at h
      by_cases hk : (k' == k) = true
      · rw [if_pos hk] at h
        injection h with h'
        rw [← h']; exact hd.1
      · rw [if_neg hk] at h
        exact absurd h (by simp)

theorem str_pyStr_of_isStr {v : Yaml} (h : v.isStr = true) : Yaml.str (pyStr v) = v := by
  cases v <;> simp_all [Yaml.isStr, pyStr]

theorem isStr_exists {v : Yaml} (h : v.isStr = true) : ∃ s, v = Yaml.str s := by
  cases v <;> simp_all [Yaml.isStr]

/-- C10: calling `run` with the empty string as job filter behaves exactly
like calling it with no filter: Python's `if job_filter:` is falsy for both
`None` and `""`, so all jobs run in declared order and no not-found failure
is produced. -/
theorem spec_empty_filter (W : World) (wf : Workflow) :
    run W wf (some "") = run W wf none := rfl

/-- C4 (environment precedence): for string-valued workflow metadata — the
shape the data model declares — the per-step environment resolves a key to
the step-level value, else the job-level value, else the workflow-level
value, else the base simulated-CI layer (which yields `none` for any key that
is not one of the fixed context keys). -/
theorem spec_env_precedence (wf : Workflow) (job : Job) (step : Step)
    (hname : wf.name.isStr = true) (hwf : envAllStr wf.env = true)
    (hjob : envAllStr job.env = true) (K : String) :
    dlookup (stepEnvOf (buildEnvironment wf job) step) K =
      match dlookup step.env K with
      | some v => some v
      | none =>
        match dlookup job.env K with
        | some v => some v
        | none =>
          match dlookup wf.env K with
          | some v => some v
          | none => dlookup (baseEnv wf job) K := by
  obtain ⟨s, hs⟩ := isStr_exists hname
  have hbase : envAllStr (baseEnv wf job) = true := by
    simp [envAllStr, baseEnv, Yaml.isStr, hs]
  unfold stepEnvOf injectStrs buildEnvironment
  rw [dlookup_append, dlookup_map, dlookup_map, dlookup_append, dlookup_append]
  cases dlookup step.env K with
  | some v => rfl
  | none =>
    cases hj : dlookup job.env K with
    | some v => simp [str_pyStr_of_isStr (dlookup_all Yaml.isStr hjob hj)]
    | none =>
      cases hw : dlookup wf.env K with
      | some v => simp [str_pyStr_of_isStr (dlookup_all Yaml.isStr hwf hw)]
      | none =>
        cases hb : dlookup (baseEnv wf job) K with
        | some v => simp [str_pyStr_of_isStr (dlookup_all Yaml.isStr hbase hb)]
        | none => rfl

/-- C4 witness: with `K` bound at all three layers, the step-level value
wins. -/
theorem spec_env_precedence_witness :
    dlookup (stepEnvOf (buildEnvironment wfLayer jobLayer) stepLayer) "K" =
      some (Yaml.str "step") :=
  spec_env_precedence wfLayer jobLayer stepLayer rfl rfl rfl "K"

/-- C5 counterexample: a step-level env value reaches the per-step
environment uncoerced — `_run_step` merges `step.get("env", {})` raw, without
the `str` coercion `_build_environment` applies — so an integer-valued entry
refutes "every value in the per-step environment is a string". -/
theorem spec_string_coercion_cex :
    ¬ (∀ p ∈ stepEnvOf (buildEnvironment wfIntEnv jobIntEnv) stepIntEnv,
        (Prod.snd p).isStr = true) := by
  intro h
  have hm : ("K", Yaml.int 1) ∈ stepEnvOf (buildEnvironment wfIntEnv jobIntEnv) stepIntEnv := by
    simp [stepEnvOf, stepIntEnv]
  exact absurd (h _ hm) (by simp [Yaml.isStr])

/-- C5 amended: every value of the per-step environment is a string unless
the binding comes verbatim from the step-level env mapping (base, workflow
and job layer values are all coerced by `str`). -/
theorem spec_string_coercion_amended (wf : Workflow) (job : Job) (step : Step) :
    ∀ p ∈ stepEnvOf (buildEnvironment wf job) step,
      (Prod.snd p).isStr = true ∨ p ∈ step.env := by
  intro p hp
  rcases List.mem_append.mp hp with hl | hr
  · left
    rcases List.mem_map.mp hl with ⟨q, _, hq⟩
    rw [← hq]
    rfl
  · right
    exact hr

/-- C5 amended, witness: the integer-valued entry of the counterexample step
is accounted for by the step-env branch of the disjunction. -/
theorem spec_string_coercion_amended_witness :
    (Yaml.int 1).isStr = true ∨ ("K", Yaml.int 1) ∈ stepIntEnv.env :=
  spec_string_coercion_amended wfIntEnv jobIntEnv stepIntEnv ("K", Yaml.int 1)
    (by simp [stepEnvOf, stepIntEnv])

/-! Runner unfolding and trace lemmas. -/

theorem runStepsAux_cons (W : World) (jid : String) (env : List (String × String))
    (idx : Nat) (s : Step) (rest : List Step) :
    runStepsAux W jid env idx (s :: rest) =
      if (runStep W s env).1 then
        ((runStepsAux W jid env (idx + 1) rest).1,
         (runStep W s env).2 + (runStepsAux W jid env (idx + 1) rest).2.1,
         Event.stepRun jid idx :: (runStepsAux W jid env (idx + 1) rest).2.2)
      else
        (false, (runStep W s env).2, [Event.stepRun jid idx]) := rfl

theorem runJobs_cons (W : World) (wf : Workflow) (j : Job) (rest : List Job) :
    runJobs W wf (j :: rest) =
      if (runJob W wf j).1 then
        ({ (runJobs W wf rest).1 with
            total_time := ((runJob W wf j).2.1 : Int) + (runJobs W wf rest).1.total_time },
         (runJob W wf j).2.2 ++ (runJobs W wf rest).2)
      else
        ({ success := false, error := some ("Job '" ++ j.id ++ "' failed"),
           total_time := ((runJob W wf j).2.1 : Int) }, (runJob W wf j).2.2) := rfl

theorem runStepsAux_all_ok (W : World) (jid : String) (env : List (String × String)) :
    ∀ (ss : List Step) (idx : Nat), (∀ t ∈ ss, (runStep W t env).1 = true) →
    runStepsAux W jid env idx ss =
      (true, (ss.map (fun t => (runStep W t env).2)).sum,
       (List.range' idx ss.length).map (Event.stepRun jid)) := by
  intro ss
  induction ss with
  | nil => intro idx _; rfl
  | cons s rest ih =>
    intro idx h
    have hs : (runStep W s env).1 = true := h s (List.mem_cons_self _ _)
    rw [runStepsAux_cons, if_pos hs, ih (idx + 1) (fun t ht => h t (List.mem_cons_of_mem _ ht))]
    simp [List.range'_succ idx rest.length 1]

theorem runStepsAux_fail (W : World) (jid : String) (env : List (String × String))
    (s : Step) (spost : List Step) (hfail : (runStep W s env).1 = false) :
    ∀ (spre : List Step) (idx : Nat), (∀ t ∈ spre, (runStep W t env).1 = true) →
    runStepsAux W jid env idx (spre ++ s :: spost) =
      (false,
       (spre.map (fun t => (runStep W t env).2)).sum + (runStep W s env).2,
       (List.range' idx (spre.length + 1)).map (Event.stepRun jid)) := by
  intro spre
  induction spre with
  | nil =>
    intro idx _
    rw [List.nil_append, runStepsAux_cons, if_neg (by simp [hfail])]
    simp [List.range'_succ idx 0 1]
  | cons t spre ih =>
    intro idx h
    have ht : (runStep W t env).1 = true := h t (List.mem_cons_self _ _)
    rw [List.cons_append, runStepsAux_cons, if_pos ht,
      ih (idx + 1) (fun u hu => h u (List.mem_cons_of_mem _ hu))]
    simp [List.range'_succ idx (spre.length + 1) 1, Nat.add_assoc]

theorem runJob_fail (W : World) (wf : Workflow) (J : Job) (spre : List Step) (s : Step)
    (spost : List Step) (hsteps : J.steps = spre ++ s :: spost)
    (hspre : ∀ t ∈ spre, (runStep W t (buildEnvironment wf J)).1 = true)
    (hfail : (runStep W s (buildEnvironment wf J)).1 = false) :
    runJob W wf J =
      (false,
       (spre.map (fun t => (runStep W t (buildEnvironment wf J)).2)).sum +
         (runStep W s (buildEnvironment wf J)).2,
       Event.jobStart J.id ::
         (List.range (spre.length + 1)).map (fun i => Event.stepRun J.id i)) := by
  simp only [runJob, hsteps]
  rw [runStepsAux_fail W J.id (buildEnvironment wf J) s spost hfail spre 0 hspre]
  simp [List.range_eq_range']

theorem runJobs_all_ok (W : World) (wf : Workflow) :
    ∀ (js : List Job), (∀ j ∈ js, (runJob W wf j).1 = true) →
    runJobs W wf js =
      ({ success := true, error := none,
         total_time := (js.map (fun j => ((runJob W wf j).2.1 : Int))).sum },
       (js.map (fun j => (runJob W wf j).2.2)).flatten) := by
  intro js
  induction js with
  | nil => intro _; rfl
  | cons j rest ih =>
    intro h
    rw [runJobs_cons, if_pos (h j (List.mem_cons_self _ _)),
      ih (fun u hu => h u (List.mem_cons_of_mem _ hu))]
    simp

theorem runJobs_fail (W : World) (wf : Workflow) (J : Job)
    (post : List Job) (hJ : (runJob W wf J).1 = false) :
    ∀ (pre : List Job), (∀ j ∈ pre, (runJob W wf j).1 = true) →
    runJobs W wf (pre ++ J :: post) =
      ({ success := false, error := some ("Job '" ++ J.id ++ "' failed"),
         total_time := (pre.map (fun j => ((runJob W wf j).2.1 : Int))).sum +
           ((runJob W wf J).2.1 : Int) },
       (pre.map (fun j => (runJob W wf j).2.2)).flatten ++ (runJob W wf J).2.2) := by
  intro pre
  induction pre with
  | nil =>
    intro _
    rw [List.nil_append, runJobs_cons, if_neg (by simp [hJ])]
    simp
  | cons j pre ih =>
    intro h
    rw [List.cons_append, runJobs_cons, if_pos (h j (List.mem_cons_self _ _)),
      ih (fun u hu => h u (List.mem_cons_of_mem _ hu))]
    simp [Int.add_assoc]

theorem runStepsAux_event_id (W : World) (jid : String) (env : List (String × String)) :
    ∀ (ss : List Step) (idx : Nat) (e : Event),
      e ∈ (runStepsAux W jid env idx ss).2.2 → eventJobId e = jid := by
  intro ss
  induction ss with
  | nil => intro idx e he; simp [runStepsAux] at he
  | cons s rest ih =>
    intro idx e he
    rw [runStepsAux_cons] at he
    by_cases hs : (runStep W s env).1 = true
    · rw [if_pos hs] at he
      rcases List.mem_cons.mp he with h | h
      · rw [h]; rfl
      · exact ih (idx + 1) e h
    · rw [if_neg hs] at he
      rcases List.mem_cons.mp he with h | h
      · rw [h]; rfl
      · simp at h

theorem runJob_event_id (W : World) (wf : Workflow) (j : Job) (e : Event)
    (he : e ∈ (runJob W wf j).2.2) : eventJobId e = j.id := by
  unfold runJob at he
  rcases List.mem_cons.mp he with h | h
  · rw [h]; rfl
  · exact runStepsAux_event_id W j.id (buildEnvironment wf j) j.steps 0 e h

theorem runJobs_event_id (W : World) (wf : Workflow) :
    ∀ (js : List Job) (e : Event), e ∈ (runJobs W wf js).2 →
      ∃ j ∈ js, eventJobId e = j.id := by
  intro js
  induction js with
  | nil => intro e he; simp [runJobs] at he
  | cons j rest ih =>
    intro e he
    rw [runJobs_cons] at he
    by_cases hj : (runJob W wf j).1 = true
    · rw [if_pos hj] at he
      rcases List.mem_append.mp he with h | h
      · exact ⟨j, List.mem_cons_self _ _, runJob_event_id W wf j e h⟩
      · obtain ⟨u, hu, hid⟩ := ih e h
        exact ⟨u, List.mem_cons_of_mem _ hu, hid⟩
    · rw [if_neg hj] at he
      exact ⟨j, List.mem_cons_self _ _, runJob_event_id W wf j e he⟩

/-- C1 (fail-fast): when the jobs before `J` all succeed and `J`'s first
failing step is `s` (after the succeeding prefix `spre`), `run` with no
filter returns failure with error `Job '<J.id>' failed`, its `total_time` is
the elapsed time of all work done so far (every earlier job plus `J`'s work
up to and including the failing step), and the dispatch trace ends at that
failing step: no later step of `J` and no subsequent job is dispatched. -/
theorem spec_fail_fast (W : World) (wf : Workflow) (pre : List Job) (J : Job)
    (post : List Job) (spre : List Step) (s : Step) (spost : List Step)
    (hjobs : wf.jobs = pre ++ J :: post)
    (hpre : ∀ j ∈ pre, (runJob W wf j).1 = true)
    (hsteps : J.steps = spre ++ s :: spost)
    (hspre : ∀ t ∈ spre, (runStep W t (buildEnvironment wf J)).1 = true)
    (hfail : (runStep W s (buildEnvironment wf J)).1 = false) :
    (run W wf none).1.success = false ∧
    (run W wf none).1.error = some ("Job '" ++ J.id ++ "' failed") ∧
    (run W wf none).1.total_time =
      (pre.map (fun j => ((runJob W wf j).2.1 : Int))).sum + ((runJob W wf J).2.1 : Int) ∧
    (run W wf none).2 =
      (pre.map (fun j => (runJob W wf j).2.2)).flatten ++
        Event.jobStart J.id ::
          (List.range (spre.length + 1)).map (fun i => Event.stepRun J.id i) := by
  have hJ := runJob_fail W wf J spre s spost hsteps hspre hfail
  have hJf : (runJob W wf J).1 = false := by rw [hJ]
  have hrun : run W wf none = runJobs W wf wf.jobs := rfl
  rw [hrun, hjobs, runJobs_fail W wf J post hJf pre hpre]
  refine ⟨rfl, rfl, rfl, ?_⟩
  rw [hJ]

/-- C1 witness: the spec section 8 example — job `a` succeeds, job `b`'s
single step runs `exit 1`; the run fails with `Job 'b' failed` after
dispatching both jobs' single steps and nothing more. -/
theorem spec_fail_fast_witness :
    (run W0 wfEx none).1.success = false ∧
    (run W0 wfEx none).1.error = some "Job 'b' failed" ∧
    (run W0 wfEx none).1.total_time = 2 ∧
    (run W0 wfEx none).2 =
      [Event.jobStart "a", Event.stepRun "a" 0, Event.jobStart "b", Event.stepRun "b" 0] :=
  spec_fail_fast W0 wfEx [jobA] jobB [] [] stepFailEx [] rfl (by decide) rfl
    (by simp) (by decide)

/-- C3 (job-not-found filter): with a non-empty filter matching no job id,
`run` returns failure with error `Job '<filter>' not found`, `total_time`
zero, and an empty dispatch trace — no job or step is dispatched. -/
theorem spec_filter_not_found (W : World) (wf : Workflow) (X : String)
    (hX : X ≠ "") (hno : ∀ j ∈ wf.jobs, j.id ≠ X) :
    run W wf (some X) =
      ({ success := false, error := some ("Job '" ++ X ++ "' not found"),
         total_time := 0 }, []) := by
  have ht : strTruthy (some X) = true := by
    simp [strTruthy]; exact hX
  have hfilter : wf.jobs.filter (fun j => j.id == X) = [] := by
    rw [List.filter_eq_nil_iff]
    intro j hj
    simp [hno j hj]
  unfold run
  rw [ht, if_pos rfl]
  simp [hfilter]

/-- C3 witness: filtering the example workflow by the id `c`, which no job
has. -/
theorem spec_filter_not_found_witness :
    run W0 wfEx (some "c") =
      ({ success := false, error := some "Job 'c' not found", total_time := 0 }, []) :=
  spec_filter_not_found W0 wfEx "c" (by decide) (by decide)

/-- C2 (step dispatch result): `_run_step` reports success iff the step takes
the packaged-action branch (truthy `uses` — always succeeds), or the no-op
branch (neither `uses` nor `run` truthy — always succeeds), or the
shell-command branch with the spawned process exiting with code exactly 0. -/
theorem spec_step_dispatch_iff (W : World) (step : Step) (env : List (String × String)) :
    (runStep W step env).1 = true ↔
      ytruthy step.uses = true ∨
      (ytruthy step.uses = false ∧ ytruthy step.run = false) ∨
      (ytruthy step.uses = false ∧ ytruthy step.run = true ∧
        ∃ stderr d, W.exec step.run (injectStrs W.osEnv ++ stepEnvOf env step) =
          (CmdOutcome.exit 0 stderr, d)) := by
  unfold runStep
  cases hu : ytruthy step.uses with
  | true => simp [hu]
  | false =>
    cases hr : ytruthy step.run with
    | false => simp [hu, hr]
    | true =>
      rw [if_neg (by simp [hu]), if_pos rfl]
      cases hx : W.exec step.run (injectStrs W.osEnv ++ stepEnvOf env step) with
      | mk out d =>
        cases out with
        | exit code stderr =>
          simp only [hu, hr, hx, beq_iff_eq, Bool.false_eq_true, false_or,
            Bool.true_eq_false, false_and, and_false, true_and, Prod.mk.injEq,
            CmdOutcome.exit.injEq]
          constructor
          · intro hc
            exact ⟨stderr, d, ⟨hc, rfl⟩, rfl⟩
          · rintro ⟨st', d', ⟨hc, _⟩, _⟩
            exact hc
        | exc m =>
          simp [hu, hr, hx]

/-- C7 (dispatcher exception containment): on the shell-command branch, an
exception raised while starting or communicating with the process is
converted into a failure result: `_run_step` returns false (the model is
total, so nothing propagates out of the dispatcher or out of `run`). -/
theorem spec_exception_containment (W : World) (step : Step)
    (env : List (String × String)) (msg : String) (d : Nat)
    (hu : ytruthy step.uses = false) (hr : ytruthy step.run = true)
    (hexec : W.exec step.run (injectStrs W.osEnv ++ stepEnvOf env step) =
      (CmdOutcome.exc msg, d)) :
    (runStep W step env).1 = false := by
  unfold runStep
  rw [hu, hr]
  simp [hexec]

/-- C7 witness: in a world where spawning the shell always raises, the
example command step fails rather than faulting. -/
theorem spec_exception_containment_witness :
    (runStep Wexc stepOkEx (buildEnvironment wfEx jobA)).1 = false :=
  spec_exception_containment Wexc stepOkEx (buildEnvironment wfEx jobA)
    "spawn failed" 0 (by decide) (by decide) rfl

/-- C8 (result shape invariant): every result `run` returns carries an error
message exactly when its success flag is false, and its `total_time` is a
non-negative number. -/
theorem spec_result_shape (W : World) (wf : Workflow) (filt : Option String) :
    ((run W wf filt).1.error.isSome = !(run W wf filt).1.success) ∧
      0 ≤ (run W wf filt).1.total_time := by
  have hjobs : ∀ js : List Job,
      ((runJobs W wf js).1.error.isSome = !(runJobs W wf js).1.success) ∧
        0 ≤ (runJobs W wf js).1.total_time := by
    intro js
    induction js with
    | nil => simp [runJobs]
    | cons j rest ih =>
      rw [runJobs_cons]
      by_cases hj : (runJob W wf j).1 = true
      · rw [if_pos hj]
        refine ⟨ih.1, ?_⟩
        have := ih.2
        positivity
      · rw [if_neg hj]
        simp
  cases ht : strTruthy filt with
  | false =>
    simp only [run, ht, Bool.false_eq_true, if_false]
    exact hjobs wf.jobs
  | true =>
    simp only [run, ht, if_true]
    by_cases he : (wf.jobs.filter (fun j => j.id == filt.getD "")).isEmpty = true
    · simp [he]
    · simp only [he, Bool.false_eq_true, if_false]
      exact hjobs _

/-- C6 counterexample: with two jobs sharing the id `a`, the first of which
fails, `run (job_filter = "a")` dispatches only one job — fail-fast stops the
run — although two jobs have the matching id, so "dispatches exactly the jobs
whose id equals X" is false as stated. -/
theorem spec_filter_selection_cex :
    ((run W0 wfDup (some "a")).2.countP (fun e =>
        match e with
        | Event.jobStart _ => true
        | _ => false)) = 1 ∧
    (wfDup.jobs.filter (fun j => j.id == "a")).length = 2 := ⟨rfl, rfl⟩

/-- C6 amended: with a non-empty filter X matched by at least one job id,
every dispatched event belongs to a job with id X (no job or step of any
other id is dispatched), and when no selected job fails the dispatch trace is
exactly the concatenation of the traces of all jobs with id X in their
declared order. -/
theorem spec_filter_selection_amended (W : World) (wf : Workflow) (X : String)
    (hX : X ≠ "") (hex : ∃ j ∈ wf.jobs, j.id = X) :
    (∀ e ∈ (run W wf (some X)).2, eventJobId e = X) ∧
    ((∀ j ∈ wf.jobs.filter (fun j => j.id == X), (runJob W wf j).1 = true) →
      (run W wf (some X)).2 =
        ((wf.jobs.filter (fun j => j.id == X)).map
          (fun j => (runJob W wf j).2.2)).flatten) := by
  have ht : strTruthy (some X) = true := by
    simp [strTruthy]; exact hX
  have hne : (wf.jobs.filter (fun j => j.id == X)).isEmpty = false := by
    obtain ⟨j, hj, hid⟩ := hex
    have hm : j ∈ wf.jobs.filter (fun j => j.id == X) :=
      List.mem_filter.mpr ⟨hj, by simp [hid]⟩
    cases hie : (wf.jobs.filter (fun j => j.id == X)).isEmpty with
    | false => rfl
    | true =>
      rw [List.isEmpty_iff] at hie
      rw [hie] at hm
      simp at hm
  have hrun : run W wf (some X) = runJobs W wf (wf.jobs.filter (fun j => j.id == X)) := by
    simp only [run, ht, if_true, Option.getD_some, hne, Bool.false_eq_true, if_false]
  constructor
  · intro e he
    rw [hrun] at he
    obtain ⟨j, hj, hid⟩ := runJobs_event_id W wf _ e he
    rw [hid]
    simpa using (List.mem_filter.mp hj).2
  · intro hall
    rw [hrun, runJobs_all_ok W wf _ hall]

/-- C6 amended, witness at the duplicate-id workflow with filter `a`. -/
theorem spec_filter_selection_amended_witness :
    (∀ e ∈ (run W0 wfDup (some "a")).2, eventJobId e = "a") ∧
    ((∀ j ∈ wfDup.jobs.filter (fun j => j.id == "a"), (runJob W0 wfDup j).1 = true) →
      (run W0 wfDup (some "a")).2 =
        ((wfDup.jobs.filter (fun j => j.id == "a")).map
          (fun j => (runJob W0 wfDup j).2.2)).flatten) :=
  spec_filter_selection_amended W0 wfDup "a" (by decide)
    ⟨jobDup1, List.mem_cons_self _ _, rfl⟩

/-! Loader lemmas. -/

theorem yamlItems_eq_some {y : Yaml} {l : List (String × Yaml)}
    (h : yamlItems y = some l) : y = Yaml.map l := by
  cases y <;> simp_all [yamlItems]

theorem buildJobs_isSome : ∀ (jobItems : List (String × Yaml)),
    (jobItems.all (fun p =>
      match p.2 with
      | Yaml.map jm => ((dlookup jm "steps").getD (Yaml.list []) |> yamlIter).isSome
      | _ => true)) = true →
    ∃ js, buildJobs jobItems = some js := by
  intro jobItems
  induction jobItems with
  | nil => intro _; exact ⟨[], rfl⟩
  | cons p rest ih =>
    intro h
    obtain ⟨jid, jdata⟩ := p
    simp only [List.all_cons, Bool.and_eq_true] at h
    obtain ⟨js, hjs⟩ := ih h.2
    cases jdata with
    | map jm =>
      have h1 := h.1
      simp only at h1
      obtain ⟨si, hsi⟩ := Option.isSome_iff_exists.mp h1
      exact ⟨buildJob jid jm (buildSteps si) :: js, by simp [buildJobs, hsi, hjs]⟩
    | str s => exact ⟨js, by simpa [buildJobs] using hjs⟩
    | int n => exact ⟨js, by simpa [buildJobs] using hjs⟩
    | bool b => exact ⟨js, by simpa [buildJobs] using hjs⟩
    | nullV => exact ⟨js, by simpa [buildJobs] using hjs⟩
    | list xs => exact ⟨js, by simpa [buildJobs] using hjs⟩

/-- C9 counterexample: a file that exists, parses as YAML, and whose
top-level document is a mapping, but whose `jobs` entry is the integer 5:
`parse` neither fails with one of the three documented conditions nor returns
a Workflow — `jobs.items()` raises an uncaught `AttributeError`. -/
theorem spec_loader_conditions_cex :
    parse "w" "w.yml" (FileInput.content badJobsDoc) =
      Except.error (PError.uncaught "AttributeError: no attribute items") := rfl

/-- C9 amended: `parse` fails with the not-found condition exactly when the
path is absent; otherwise with the YAML-syntax condition exactly when the
document cannot be parsed; otherwise with the structural condition exactly
when the top-level document is not a mapping; otherwise it returns a Workflow
value *provided* the `jobs` entry (defaulting to an empty mapping) is a
mapping and each dict-shaped job's `steps` entry is iterable — failing that,
an uncaught attribute/type error escapes instead. -/
theorem spec_loader_conditions_amended (stem path : String) (fi : FileInput) :
    ((∃ m, parse stem path fi = Except.error (PError.fileNotFound m)) ↔
      fi = FileInput.missing) ∧
    ((∃ m, parse stem path fi = Except.error (PError.invalidYaml m)) ↔
      ∃ e, fi = FileInput.yamlError e) ∧
    ((parse stem path fi = Except.error PError.notMapping) ↔
      ∃ d, fi = FileInput.content d ∧ yamlItems d = none) ∧
    (∀ kvs, fi = FileInput.content (Yaml.map kvs) → jobsShapeOk kvs = true →
      ∃ w, parse stem path fi = Except.ok w) := by
  cases fi with
  | missing =>
    refine ⟨by simp [parse], by simp [parse], by simp [parse], ?_⟩
    intro kvs h
    simp at h
  | yamlError e =>
    refine ⟨by simp [parse], by simp [parse], by simp [parse], ?_⟩
    intro kvs h
    simp at h
  | content d =>
    cases hd : d with
    | map kvs =>
      cases hj : yamlItems ((dlookup kvs "jobs").getD (Yaml.map [])) with
      | none =>
        have hparse : parse stem path (FileInput.content (Yaml.map kvs)) =
            Except.error (PError.uncaught "AttributeError: no attribute items") := by
          simp only [parse, hj]
        refine ⟨by simp [hparse], by simp [hparse], ?_, ?_⟩
        · simp only [hparse]
          constructor
          · intro h; exact absurd h (by simp)
          · rintro ⟨d', hd', hi⟩
            injection hd' with hd''
            rw [← hd''] at hi
            simp [yamlItems] at hi
        · intro kvs' hk hshape
          injection hk with hk'
          injection hk' with hk''
          rw [← hk''] at hshape
          rw [jobsShapeOk] at hshape
          cases hjj : (dlookup kvs "jobs").getD (Yaml.map []) with
          | map ji => rw [hjj] at hj; simp [yamlItems] at hj
          | str s => rw [hjj] at hshape; simp at hshape
          | int n => rw [hjj] at hshape; simp at hshape
          | bool b => rw [hjj] at hshape; simp at hshape
          | nullV => rw [hjj] at hshape; simp at hshape
          | list xs => rw [hjj] at hshape; simp at hshape
      | some jobItems =>
        cases hb : buildJobs jobItems with
        | none =>
          have hparse : parse stem path (FileInput.content (Yaml.map kvs)) =
              Except.error (PError.uncaught "TypeError: object is not iterable") := by
            simp only [parse, hj, hb]
          refine ⟨by simp [hparse], by simp [hparse], ?_, ?_⟩
          · simp only [hparse]
            constructor
            · intro h; exact absurd h (by simp)
            · rintro ⟨d', hd', hi⟩
              injection hd' with hd''
              rw [← hd''] at hi
              simp [yamlItems] at hi
          · intro kvs' hk hshape
            injection hk with hk'
            injection hk' with hk''
            rw [← hk''] at hshape
            rw [jobsShapeOk] at hshape
            rw [yamlItems_eq_some hj] at hshape
            simp only at hshape
            obtain ⟨js, hjs⟩ := buildJobs_isSome jobItems hshape
            rw [hjs] at hb
            exact absurd hb (by simp)
        | some js =>
          have hparse : parse stem path (FileInput.content (Yaml.map kvs)) =
              Except.ok
                { name := (dlookup kvs "name").getD (Yaml.str stem),
                  env := asMapD ((dlookup kvs "env").getD (Yaml.map [])),
                  jobs := js } := by
            simp only [parse, hj, hb]
          refine ⟨by simp [hparse], by simp [hparse], ?_, ?_⟩
          · simp only [hparse]
            constructor
            · intro h; exact absurd h (by simp)
            · rintro ⟨d', hd', hi⟩
              injection hd' with hd''
              rw [← hd''] at hi
              simp [yamlItems] at hi
          · intro kvs' _ _
            exact ⟨_, hparse⟩
    | str s =>
      refine ⟨by simp [parse], by simp [parse], ?_, ?_⟩
      · simp only [parse]
        constructor
        · intro _; exact ⟨Yaml.str s, rfl, rfl⟩
        · intro _; trivial
      · intro kvs hk
        simp at hk
    | int n =>
      refine ⟨by simp [parse], by simp [parse], ?_, ?_⟩
      · simp only [parse]
        constructor
        · intro _; exact ⟨Yaml.int n, rfl, rfl⟩
        · intro _; trivial
      · intro kvs hk
        simp at hk
    | bool b =>
      refine ⟨by simp [parse], by simp [parse], ?_, ?_⟩
      · simp only [parse]
        constructor
        · intro _; exact ⟨Yaml.bool b, rfl, rfl⟩
        · intro _; trivial
      · intro kvs hk
        simp at hk
    | nullV =>
      refine ⟨by simp [parse], by simp [parse], ?_, ?_⟩
      · simp only [parse]
        constructor
        · intro _; exact ⟨Yaml.nullV, rfl, rfl⟩
        · intro _; trivial
      · intro kvs hk
        simp at hk
    | list xs =>
      refine ⟨by simp [parse], by simp [parse], ?_, ?_⟩
      · simp only [parse]
        constructor
        · intro _; exact ⟨Yaml.list xs, rfl, rfl⟩
        · intro _; trivial
      · intro kvs hk
        simp at hk

/-- C9 amended, witness: an empty top-level mapping parses to a Workflow. -/
theorem spec_loader_conditions_amended_witness :
    ∃ w, parse "wf" "wf.yml" (FileInput.content (Yaml.map [])) = Except.ok w :=
  (spec_loader_conditions_amended "wf" "wf.yml" (FileInput.content (Yaml.map []))).2.2.2
    [] rfl (by decide)

end GhaDebug
